import Mathlib

/-!
Verification of the transactional-outbox core of the media-platform
repository.  Each Go component that the claims touch is shallowly embedded
as an executable Lean definition, translated from the source:

* `internal/media/domain`            : status enum and transition table
* `internal/media/kafka/producer.go` : config validation/defaults, retry
  loop with exponential backoff, error classification, closed guard,
  metrics, batch publishing, close
* `internal/media/service/service.go`: `ChangeStatus` transactional write
  path (aggregate update + outbox insert in one transaction)
* `internal/storage/postgres`        : outbox `GetPending`/`MarkProcessed`
* `internal/media/outbox/publisher.go`: per-tick batch draining loop

Go `int`/`time.Duration` values are modelled as mathematical `Int` with
explicit wrap-around at 64 bits (`wrap64`) exactly where the Go code can
overflow.  Fallible calls are modelled with `Except`/`Option`, and I/O
outcomes (broker answers, store failures, context cancellation) are
supplied by explicit oracles so that every control path of the source is
representable.
-/

namespace MediaPlatform

/-! ## Domain state machine (`internal/media/domain`) -/

/-- The four media statuses (`Status` constants in `domain` and `models`;
every aggregate the service touches carries one of these four values). -/
inductive Status where
  | uploaded
  | processing
  | ready
  | failed
deriving DecidableEq, Repr, Fintype

/-- `domain.CanTransition` translated clause by clause. -/
def CanTransition (from_ to_ : Status) : Bool :=
  match from_ with
  | .uploaded   => to_ == .processing || to_ == .failed
  | .processing => to_ == .ready || to_ == .failed
  | .ready      => false
  | .failed     => false

/-- `domain.ValidateTransition`: `none` models a `nil` error, `some msg`
models the `invalid transition` error. -/
def ValidateTransition (from_ to_ : Status) : Option String :=
  if from_ = to_ then none
  else if !(CanTransition from_ to_) then some "invalid transition"
  else none

/-! ## Kafka producer error classification
(`internal/media/kafka/producer.go`, `isRetriableError` / `contains`) -/

/-- A Go `error` value as seen by `isRetriableError`: the two context
sentinel errors (matched via `errors.Is`) or an arbitrary error text. -/
inductive KErr where
  | canceled
  | deadlineExceeded
  | msg (text : String)
deriving DecidableEq, Repr

/-- The `contains` helper of `producer.go`, byte for byte:

    len(s) >= len(substr) && (s == substr || len(s) > len(substr) &&
      (s[:len(substr)] == substr || s[len(s)-len(substr):] == substr ||
        len(s) > len(substr)*2))

(Strings are ASCII here, so Go's byte slicing equals char slicing.) -/
def containsGo (s substr : String) : Bool :=
  let ls := s.toList
  let lp := substr.toList
  decide (ls.length ≥ lp.length) &&
    (ls == lp ||
      (decide (ls.length > lp.length) &&
        (ls.take lp.length == lp ||
         ls.drop (ls.length - lp.length) == lp ||
         decide (ls.length > lp.length * 2))))

/-- The retriable-pattern list of `isRetriableError`. -/
def retriablePatterns : List String :=
  ["connection refused", "connection reset", "broken pipe", "timeout",
   "temporary failure", "leader not available", "not controller"]

/-- The non-retriable-pattern list of `isRetriableError`. -/
def nonRetriablePatterns : List String :=
  ["invalid message", "message too large", "authorization failed",
   "topic authorization failed"]

/-- `isRetriableError` translated clause by clause: `nil` and context
errors are not retried; otherwise the retriable pattern list is scanned
first, then the non-retriable list, and the default is retriable. -/
def isRetriableError (err : Option KErr) : Bool :=
  match err with
  | none => false
  | some .canceled => false
  | some .deadlineExceeded => false
  | some (.msg errStr) =>
    if retriablePatterns.any (fun p => containsGo errStr p) then true
    else if nonRetriablePatterns.any (fun p => containsGo errStr p) then false
    else true

/-! ## Producer configuration
(`producer.go`, `ProducerConfig` / `validateConfig` / `setDefaults` /
`NewProducer`).  Durations are in nanoseconds (`time.Duration` = `int64`),
counts are Go `int`s, both modelled as `Int`. -/

structure ProducerConfig where
  brokers : List String
  topic : String
  maxRetries : Int
  retryBackoff : Int
  writeTimeout : Int
  batchSize : Int
  async : Bool
deriving DecidableEq, Repr

/-- `validateConfig`: the first failing check's error text, or `none`. -/
def validateConfig (cfg : ProducerConfig) : Option String :=
  if cfg.brokers.length = 0 then some "brokers list is empty"
  else if cfg.topic = "" then some "topic is empty"
  else if cfg.maxRetries < 0 then some "max_retries cannot be negative"
  else if cfg.retryBackoff < 0 then some "retry_backoff cannot be negative"
  else if cfg.writeTimeout < 0 then some "write_timeout cannot be negative"
  else none

/-- `setDefaults`: every zero field is replaced by its default
(3 retries, 100ms backoff, 10s write timeout, batch size 100). -/
def setDefaults (cfg : ProducerConfig) : ProducerConfig :=
  { cfg with
    maxRetries := if cfg.maxRetries = 0 then 3 else cfg.maxRetries
    retryBackoff := if cfg.retryBackoff = 0 then 100000000 else cfg.retryBackoff
    writeTimeout := if cfg.writeTimeout = 0 then 10000000000 else cfg.writeTimeout
    batchSize := if cfg.batchSize = 0 then 100 else cfg.batchSize }

/-- `NewProducer` restricted to its config handling: validate, then apply
defaults; the returned value is the `config` field the new producer
stores (writer/logger construction has no observable effect here). -/
def NewProducer (cfg : ProducerConfig) : Except String ProducerConfig :=
  match validateConfig cfg with
  | some e => .error ("invalid config: " ++ e)
  | none => .ok (setDefaults cfg)

/-! ## Backoff arithmetic

`backoff := p.config.RetryBackoff * time.Duration(1<<uint(attempt-1))`
is 64-bit signed arithmetic: both the shift (a Go `int`, 64-bit) and the
product (`time.Duration` = `int64`) wrap around. -/

/-- Interpret an integer modulo 2^64 as a signed 64-bit value. -/
def wrap64 (x : Int) : Int :=
  (x + 2 ^ 63) % 2 ^ 64 - 2 ^ 63

/-- Go's `1 << uint n` as a 64-bit `int`: `2^n` below bit 63, the sign
bit for `n = 63`, and `0` once every bit is shifted out. -/
def goShl1 (n : Nat) : Int :=
  if n < 63 then 2 ^ n
  else if n = 63 then -(2 ^ 63)
  else 0

/-- 5 seconds in nanoseconds, the backoff cap. -/
def capNs : Int := 5000000000

/-- The backoff the producer computes before retry `attempt` (≥ 1):
`RetryBackoff * (1 << (attempt-1))` in wrapping 64-bit arithmetic, then
capped at 5s.  (A wait that comes out ≤ 0 fires immediately in Go.) -/
def backoffNs (base : Int) (attempt : Nat) : Int :=
  let b := wrap64 (base * goShl1 (attempt - 1))
  if b > capNs then capNs else b

/-! ## The Publish retry loop (`producer.go`, `Publish`)

The loop `for attempt := 0; attempt <= MaxRetries; attempt++` is run over
the explicit attempt list `List.range (maxRetries+1)`.  Two oracles feed
in the environment: `ctxDone a` tells whether the context is already
cancelled when retry `a` starts its backoff select, and `outcomes a` is
the error (`none` = success) returned by `publishAttempt` number `a`. -/

/-- How one `Publish` call ended, seen from the loop. -/
inductive ROutcome where
  | ok
  | cancelled
  /-- loop broken by a non-retriable classification -/
  | gaveUp (last : KErr)
  /-- every attempt used up; `last` is the final `lastErr` -/
  | exhausted (last : Option KErr)
deriving DecidableEq, Repr

/-- Trace of one `Publish` call: backoffs actually waited (in order),
number of `publishAttempt` calls (= broker calls), number of
`RetriesTotal` increments, and the terminal outcome. -/
structure Run where
  waits : List Int
  attempts : Nat
  retries : Nat
  outcome : ROutcome
deriving DecidableEq, Repr

/-- The body of the retry loop, one constructor per control path of the
source: retry bookkeeping and the cancellation select for `attempt > 0`,
then `publishAttempt`, then success / non-retriable break / continue. -/
def runFrom (base : Int) (ctxDone : Nat → Bool) (outcomes : Nat → Option KErr) :
    Option KErr → List Nat → Run
  | last, [] => ⟨[], 0, 0, .exhausted last⟩
  | _, a :: rest =>
    if a = 0 then
      match outcomes a with
      | none => ⟨[], 1, 0, .ok⟩
      | some e =>
        if isRetriableError (some e) then
          let r := runFrom base ctxDone outcomes (some e) rest
          ⟨r.waits, r.attempts + 1, r.retries, r.outcome⟩
        else ⟨[], 1, 0, .gaveUp e⟩
    else
      -- attempt > 0: RetriesTotal++ happens before the select
      if ctxDone a then ⟨[], 0, 1, .cancelled⟩
      else
        let w := backoffNs base a
        match outcomes a with
        | none => ⟨[w], 1, 1, .ok⟩
        | some e =>
          if isRetriableError (some e) then
            let r := runFrom base ctxDone outcomes (some e) rest
            ⟨w :: r.waits, r.attempts + 1, r.retries + 1, r.outcome⟩
          else ⟨[w], 1, 1, .gaveUp e⟩

/-- The error value a `Publish` call returns. -/
inductive PubErr where
  /-- `"producer is closed"` -/
  | closed
  /-- `"context cancelled during retry"` -/
  | cancelledErr
  /-- `"failed after %d attempts: %w"`: the reported attempt count is
  always `MaxRetries+1` and the wrapped error is the last one seen -/
  | failedAfter (reported : Int) (last : Option KErr)
deriving DecidableEq, Repr

/-- Result of one `Publish` call: the returned error (if any), the loop
trace, and the metric deltas the call applied. -/
structure PublishResult where
  /-- `none` models a `nil` returned error -/
  res : Option PubErr
  run : Run
  publishedDelta : Int
  failedDelta : Int
deriving DecidableEq, Repr

/-- `Publish` for an open producer with `MaxRetries = mR`: run the loop
over attempts `0..mR` and translate the outcome exactly as the source
does (success increments `MessagesPublished`; cancellation and terminal
failure increment `MessagesFailed`; the terminal error always reports
`MaxRetries+1` attempts, even after a non-retriable break). -/
def publishGo (mR : Nat) (base : Int) (ctxDone : Nat → Bool)
    (outcomes : Nat → Option KErr) : PublishResult :=
  let r := runFrom base ctxDone outcomes none (List.range (mR + 1))
  match r.outcome with
  | .ok => ⟨none, r, 1, 0⟩
  | .cancelled => ⟨some .cancelledErr, r, 0, 1⟩
  | .gaveUp e => ⟨some (.failedAfter (Int.ofNat mR + 1) (some e)), r, 0, 1⟩
  | .exhausted last => ⟨some (.failedAfter (Int.ofNat mR + 1) last), r, 0, 1⟩

/-! ## Producer lifecycle and metrics
(`producer.go`: the `closed` flag, `ProducerMetrics`, `Publish`,
`PublishBatch`, `Close`). -/

/-- The mutable state of one `Producer` instance: the `closed` flag and
the four metric counters. -/
structure PState where
  closed : Bool
  published : Int
  failed : Int
  retries : Int
  durationNs : Int
deriving DecidableEq, Repr

/-- A fresh producer: open, all counters zero. -/
def initialPState : PState :=
  ⟨false, 0, 0, 0, 0⟩

/-- `Publish` including the closed guard and metric updates.  `durNs` is
the wall-clock duration the call observes (it only feeds the
`PublishDuration` accumulator).  Returns the result together with the
new producer state. -/
def producerPublish (st : PState) (mR : Nat) (base : Int)
    (ctxDone : Nat → Bool) (outcomes : Nat → Option KErr) (durNs : Int) :
    PublishResult × PState :=
  if st.closed then
    (⟨some .closed, ⟨[], 0, 0, .exhausted none⟩, 0, 0⟩, st)
  else
    let r := publishGo mR base ctxDone outcomes
    (r, { st with
          published := st.published + r.publishedDelta
          failed := st.failed + r.failedDelta
          retries := st.retries + Int.ofNat r.run.retries
          durationNs := st.durationNs +
            (if r.publishedDelta = 1 then durNs else 0) })

/-- `PublishBatch`: closed guard, then the empty-batch early return, then
the same retry loop with the whole batch as the unit of success/failure
(counter deltas scale with the batch length `n`). -/
def producerPublishBatch (st : PState) (n : Nat) (mR : Nat) (base : Int)
    (ctxDone : Nat → Bool) (outcomes : Nat → Option KErr) (durNs : Int) :
    PublishResult × PState :=
  if st.closed then
    (⟨some .closed, ⟨[], 0, 0, .exhausted none⟩, 0, 0⟩, st)
  else if n = 0 then
    (⟨none, ⟨[], 0, 0, .exhausted none⟩, 0, 0⟩, st)
  else
    let r := publishGo mR base ctxDone outcomes
    let r' : PublishResult :=
      ⟨r.res, r.run, r.publishedDelta * Int.ofNat n, r.failedDelta * Int.ofNat n⟩
    (r', { st with
           published := st.published + r'.publishedDelta
           failed := st.failed + r'.failedDelta
           retries := st.retries + Int.ofNat r.run.retries
           durationNs := st.durationNs +
             (if r.publishedDelta = 1 then durNs else 0) })

/-- `Close`: `CompareAndSwap(false, true)` — a second call fails with
`"producer already closed"`; otherwise the producer is closed from now
on, and the result is the writer's close result (`writerCloseOk`). -/
def producerClose (st : PState) (writerCloseOk : Bool) :
    Option String × PState :=
  if st.closed then (some "producer already closed", st)
  else ((if writerCloseOk then none else some "close writer"),
        { st with closed := true })

/-- `calculateAvgPublishTime`: 0 when nothing was published, otherwise
the integer quotient (Go `int64` division truncates toward zero). -/
def calculateAvgPublishTime (st : PState) : Int :=
  if st.published = 0 then 0 else Int.tdiv st.durationNs st.published

/-! ## Storage model
(`internal/storage/postgres`: `media` table, `outbox` table).

Identifiers (`uuid.UUID`) are opaque — modelled as `Nat`.  Timestamps
(`time.Time` / `NOW()`) are modelled as `Nat` instants supplied by the
caller (the clock oracle). -/

/-- One row of the `media` table / one `models.Media` value. -/
structure Media where
  id : Nat
  status : Status
  mtype : String
  source : String
  createdAt : Nat
  updatedAt : Nat
deriving DecidableEq, Repr

/-- One row of the `outbox` table.  `rowId` is the auto-incremented
primary key; `payloadFrom`/`payloadTo` are the `{from, to}` fields of the
serialized `MediaStatusChanged` payload; `processedAt` is `NULL` until
the publisher marks the row. -/
structure OutboxRow where
  rowId : Nat
  eventId : Nat
  eventType : String
  aggregateId : Nat
  payloadFrom : Status
  payloadTo : Status
  occurredAt : Nat
  processedAt : Option Nat
deriving DecidableEq, Repr

/-- The durable database state: the media rows, the outbox rows in
insertion order (ascending `rowId`), and the next outbox primary key. -/
structure DBState where
  media : List Media
  outbox : List OutboxRow
  nextId : Nat
deriving DecidableEq, Repr

/-- `MediaRepo.GetByID`: first row with the given id, `NULL` if absent
(`sql.ErrNoRows` → `models.ErrNotFound` handled by the caller model). -/
def getByID (db : DBState) (id : Nat) : Option Media :=
  db.media.find? (fun m => m.id = id)

/-- `UPDATE media SET status = $2, updated_at = NOW() WHERE id = $1`. -/
def updateMediaRows (rows : List Media) (id : Nat) (st : Status) (now : Nat) :
    List Media :=
  rows.map (fun m => if m.id = id then { m with status := st, updatedAt := now } else m)

/-- `OutboxRepo.GetPending`:
`WHERE processed_at IS NULL ORDER BY id ASC LIMIT $1` (outbox rows are
kept in ascending `rowId` order, so filter-then-take is the query). -/
def getPending (db : DBState) (limit : Nat) : List OutboxRow :=
  ((db.outbox.filter (fun r => r.processedAt = none)).take limit)

/-- `OutboxRepo.MarkProcessed`:
`UPDATE outbox SET processed_at = NOW() WHERE id = $1` — note there is no
`AND processed_at IS NULL` guard, so every row matching the id is
re-stamped each call.  Returns the new rows and the affected row count. -/
def markProcessed (rows : List OutboxRow) (id : Nat) (now : Nat) :
    List OutboxRow × Nat :=
  (rows.map (fun r => if r.rowId = id then { r with processedAt := some now } else r),
   (rows.filter (fun r => r.rowId = id)).length)

/-! ## Transactional write path
(`service.go`, `ChangeStatus`).

Storage failures are injected through a `Faults` oracle (one flag per
fallible call on the path).  The `sqlx` transaction is modelled by
building the pending post-state and installing it only on `Commit`; the
deferred `Rollback` of the source is the act of *not* installing it. -/

/-- Which storage calls of one `ChangeStatus` invocation fail. -/
structure Faults where
  getFails : Bool
  beginFails : Bool
  updateFails : Bool
  addFails : Bool
  commitFails : Bool
deriving DecidableEq, Repr

/-- The typed errors `ChangeStatus` can return. -/
inductive SvcErr where
  | notFound
  | invalidTransition (m : String)
  | storeErr (m : String)
deriving DecidableEq, Repr

/-- Result of one `ChangeStatus` call: the returned value or error, the
database state after the call, and whether `BeginTx` was reached. -/
structure ChangeResult where
  result : Except SvcErr Media
  db : DBState
  txOpened : Bool
deriving Repr

/-- `Service.ChangeStatus` translated step by step: read the aggregate,
validate the transition, short-circuit when the status already matches,
then — inside one transaction — update the status, insert the
`MediaStatusChanged` outbox row, and commit.  `now` models the clock and
`eventId` the freshly generated event UUID. -/
def ChangeStatus (db : DBState) (f : Faults) (now : Nat) (eventId : Nat)
    (id : Nat) (to_ : Status) : ChangeResult :=
  -- 1. GetByID
  if f.getFails then ⟨.error (.storeErr "media get by id"), db, false⟩
  else
    match getByID db id with
    | none => ⟨.error .notFound, db, false⟩
    | some m =>
      -- 2. validate transition (toDomainStatus is the identity on the enum)
      match ValidateTransition m.status to_ with
      | some e => ⟨.error (.invalidTransition e), db, false⟩
      | none =>
        -- short-circuit: status already equals the target
        if m.status = to_ then ⟨.ok m, db, false⟩
        else
          -- 3. BeginTx
          if f.beginFails then ⟨.error (.storeErr "begin tx"), db, false⟩
          else
            -- 4. UpdateStatusTx (inside the transaction)
            if f.updateFails then ⟨.error (.storeErr "media update status tx"), db, true⟩
            else
              let updated : Media := { m with status := to_, updatedAt := now }
              -- 5./6. NewMediaStatusChanged + OutboxRepo.Add (same transaction)
              if f.addFails then ⟨.error (.storeErr "add outbox"), db, true⟩
              else
                let row : OutboxRow :=
                  ⟨db.nextId, eventId, "MediaStatusChanged", id, m.status, to_, now, none⟩
                -- 7. Commit
                if f.commitFails then ⟨.error (.storeErr "commit tx"), db, true⟩
                else
                  ⟨.ok updated,
                   ⟨updateMediaRows db.media id to_ now, db.outbox ++ [row], db.nextId + 1⟩,
                   true⟩

/-! ## Outbox publisher tick
(`publisher.go`, `publishBatch`).

`pubOk i` is the outcome of `producer.Publish` for the record with
`rowId = i` on this tick, `markOk i` that of `MarkProcessed`.  The loop
walks the fetched records in order, skips a record whose publish failed,
and marks a record only after its own publish succeeded; a failed mark is
logged and ignored. -/

/-- Accumulated effect of the per-record loop: the records with their
(possibly) updated `processed_at`, the `rowId`s published in order, and
the `published`/`failed`/`marked` tick counters. -/
structure TickAcc where
  rows : List OutboxRow
  publishedIds : List Nat
  published : Nat
  failed : Nat
  marked : Nat
deriving DecidableEq, Repr

/-- The `for _, record := range records` loop of `publishBatch`. -/
def tickLoop (now : Nat) (pubOk markOk : Nat → Bool) :
    List OutboxRow → TickAcc
  | [] => ⟨[], [], 0, 0, 0⟩
  | r :: rest =>
    let acc := tickLoop now pubOk markOk rest
    if pubOk r.rowId then
      if markOk r.rowId then
        ⟨{ r with processedAt := some now } :: acc.rows,
         r.rowId :: acc.publishedIds, acc.published + 1, acc.failed, acc.marked + 1⟩
      else
        -- mark failed: the record stays pending; only a warning is logged
        ⟨r :: acc.rows, r.rowId :: acc.publishedIds,
         acc.published + 1, acc.failed, acc.marked⟩
    else
      -- publish failed: skip, leave pending, continue with the next record
      ⟨r :: acc.rows, acc.publishedIds, acc.published, acc.failed + 1, acc.marked⟩

/-- One `publishBatch` tick: `fetched = none` models a `GetPending`
error (the only case in which the tick returns an error); an empty fetch
does nothing; otherwise the loop runs and the tick returns `nil`. -/
def publisherTick (now : Nat) (pubOk markOk : Nat → Bool)
    (fetched : Option (List OutboxRow)) : Option String × TickAcc :=
  match fetched with
  | none => (some "get pending records", ⟨[], [], 0, 0, 0⟩)
  | some [] => (none, ⟨[], [], 0, 0, 0⟩)
  | some records => (none, tickLoop now pubOk markOk records)

/-! ## Concrete fixtures used by witnesses and counterexamples -/

/-- A media aggregate in status `uploaded`. -/
def sampleMedia : Media :=
  ⟨1, .uploaded, "video", "s3://bucket/object", 10, 10⟩

/-- A database holding just `sampleMedia` and an empty outbox. -/
def sampleDB : DBState :=
  ⟨[sampleMedia], [], 1⟩

/-- The fault oracle in which every storage call succeeds. -/
def noFaults : Faults :=
  ⟨false, false, false, false, false⟩

/-- A pending outbox row. -/
def sampleRow : OutboxRow :=
  ⟨1, 100, "MediaStatusChanged", 1, .uploaded, .processing, 10, none⟩

/-- A producer configuration with `MaxRetries` explicitly set to `0`. -/
def zeroRetryCfg : ProducerConfig :=
  ⟨["localhost:9092"], "media.events", 0, 100000000, 10000000000, 100, false⟩

/-- `outcomes a` is a retriable failure: `publishAttempt` number `a`
returned an error that `isRetriableError` classifies as retriable. -/
def RetriableFailure (o : Option KErr) : Prop :=
  ∃ e, o = some e ∧ isRetriableError (some e) = true

end MediaPlatform

namespace MediaPlatform

/-! ## Helper lemmas -/

theorem wrap64_eq_self {x : Int} (h1 : -(2 ^ 63) ≤ x) (h2 : x < 2 ^ 63) :
    wrap64 x = x := by
  unfold wrap64
  rw [Int.emod_eq_of_lt (by linarith) (by norm_num; linarith)]
  ring

theorem tickLoop_rows (now : Nat) (p m : Nat → Bool) (l : List OutboxRow) :
    (tickLoop now p m l).rows = l.map (fun r =>
      if p r.rowId then
        (if m r.rowId then { r with processedAt := some now } else r)
      else r) := by
  induction l with
  | nil => rfl
  | cons r t ih =>
    by_cases hp : p r.rowId <;> by_cases hm : m r.rowId <;>
      simp [tickLoop, hp, hm, ih]

theorem tickLoop_ids (now : Nat) (p m : Nat → Bool) (l : List OutboxRow) :
    (tickLoop now p m l).publishedIds =
      (l.filter (fun r => p r.rowId)).map (fun r => r.rowId) := by
  induction l with
  | nil => rfl
  | cons r t ih =>
    by_cases hp : p r.rowId <;> by_cases hm : m r.rowId <;>
      simp [tickLoop, hp, hm, ih, List.filter_cons]

/-! ## Claim theorems -/

/-- C3.  The domain state machine's `ValidateTransition` is a pure total
function on the four statuses that succeeds exactly on same-status pairs
and on Uploaded→Processing, Uploaded→Failed, Processing→Ready,
Processing→Failed; every other pair (in particular everything out of
Ready or Failed) produces the invalid-transition error. -/
theorem validateTransition_characterization (from_ to_ : Status) :
    ValidateTransition from_ to_ =
      (if from_ = to_ ∨
          (from_ = .uploaded ∧ to_ = .processing) ∨
          (from_ = .uploaded ∧ to_ = .failed) ∨
          (from_ = .processing ∧ to_ = .ready) ∨
          (from_ = .processing ∧ to_ = .failed)
       then none else some "invalid transition") := by
  revert from_ to_
  decide

/-- C2 (code bug).  The producer's own test table
(`TestIsRetriableError`) expects "invalid message format",
"message too large" and "authorization failed" to be non-retriable, but
the broken `contains` helper makes `isRetriableError` classify all three
as retriable (the retriable list is scanned first and its
`len(s) > len(substr)*2` clause matches almost everything), so `Publish`
keeps retrying instead of aborting immediately: with the default 3
retries it performs all 4 attempts on a "message too large" failure. -/
theorem isRetriable_misclassifies_nonretriable :
    isRetriableError (some (.msg "message too large")) = true ∧
    isRetriableError (some (.msg "invalid message format")) = true ∧
    isRetriableError (some (.msg "authorization failed")) = true ∧
    (publishGo 3 100000000 (fun _ => false)
        (fun _ => some (.msg "kafka write: message too large"))).run.attempts = 4 ∧
    (publishGo 3 100000000 (fun _ => false)
        (fun _ => some (.msg "kafka write: message too large"))).run.waits
      = [100000000, 200000000, 400000000] := by
  decide

/-- C4.  When the aggregate's current status already equals the
requested status, `ChangeStatus` short-circuits: it returns the aggregate
unchanged, opens no transaction, and leaves the database (media rows and
outbox) untouched. -/
theorem changeStatus_same_status_short_circuit (db : DBState) (f : Faults)
    (now eventId id : Nat) (to_ : Status) (m : Media)
    (hget : f.getFails = false) (hm : getByID db id = some m)
    (hs : m.status = to_) :
    ChangeStatus db f now eventId id to_ = ⟨.ok m, db, false⟩ := by
  simp [ChangeStatus, hget, hm, ValidateTransition, hs]

/-- Witness for C4 at a concrete database. -/
theorem changeStatus_same_status_short_circuit_witness :
    noFaults.getFails = false ∧
    getByID sampleDB 1 = some sampleMedia ∧
    sampleMedia.status = .uploaded ∧
    ChangeStatus sampleDB noFaults 20 100 1 .uploaded =
      ⟨.ok sampleMedia, sampleDB, false⟩ :=
  ⟨rfl, rfl, rfl,
   changeStatus_same_status_short_circuit sampleDB noFaults 20 100 1
     .uploaded sampleMedia rfl rfl rfl⟩

/-- C1.  Atomicity of the transactional write path: when `ChangeStatus`
succeeds on an actual status change, the committed state carries both
the updated aggregate and exactly one new outbox record describing that
change (appended after the existing rows); when it returns an error —
in particular when any step inside the transaction fails — the database
is exactly the pre-call state: neither the status update nor the outbox
insert survives. -/
theorem changeStatus_atomicity (db : DBState) (f : Faults)
    (now eventId id : Nat) (to_ : Status) :
    (∀ m m', getByID db id = some m → m.status ≠ to_ →
      (ChangeStatus db f now eventId id to_).result = .ok m' →
      m' = { m with status := to_, updatedAt := now } ∧
      (ChangeStatus db f now eventId id to_).db =
        ⟨updateMediaRows db.media id to_ now,
         db.outbox ++
           [⟨db.nextId, eventId, "MediaStatusChanged", id, m.status, to_, now, none⟩],
         db.nextId + 1⟩) ∧
    (∀ e, (ChangeStatus db f now eventId id to_).result = .error e →
      (ChangeStatus db f now eventId id to_).db = db) := by
  obtain ⟨g, b, u, a, c⟩ := f
  constructor
  · intro m m' hm hne hres
    rcases hv : ValidateTransition m.status to_ with _ | msg
    · cases g <;> cases b <;> cases u <;> cases a <;> cases c <;>
        simp_all [ChangeStatus, hm, hv, hne]
    · cases g <;> simp_all [ChangeStatus, hm, hv]
  · intro e hres
    rcases hov : getByID db id with _ | m
    · cases g <;> simp_all [ChangeStatus, hov]
    · rcases hv : ValidateTransition m.status to_ with _ | msg
      · by_cases hst : m.status = to_
        · cases g <;> simp_all [ChangeStatus, hov, hv, hst]
        · cases g <;> cases b <;> cases u <;> cases a <;> cases c <;>
            simp_all [ChangeStatus, hov, hv, hst]
      · cases g <;> simp_all [ChangeStatus, hov, hv]

/-- Witness for C1: a fault-free change Uploaded→Processing on the
sample database commits the updated aggregate plus exactly one new
outbox record. -/
theorem changeStatus_atomicity_witness :
    getByID sampleDB 1 = some sampleMedia ∧
    sampleMedia.status ≠ Status.processing ∧
    ({ sampleMedia with status := .processing, updatedAt := 20 } =
        { sampleMedia with status := .processing, updatedAt := 20 } ∧
      (ChangeStatus sampleDB noFaults 20 100 1 .processing).db =
        ⟨updateMediaRows sampleDB.media 1 .processing 20,
         sampleDB.outbox ++
           [⟨sampleDB.nextId, 100, "MediaStatusChanged", 1, sampleMedia.status,
             .processing, 20, none⟩],
         sampleDB.nextId + 1⟩) :=
  ⟨rfl, by decide,
   (changeStatus_atomicity sampleDB noFaults 20 100 1 .processing).1
     sampleMedia { sampleMedia with status := .processing, updatedAt := 20 }
     rfl (by decide) rfl⟩

/-- C8 (counterexample).  `MarkProcessed` runs
`UPDATE outbox SET processed_at = NOW() WHERE id = $1` with no
`processed_at IS NULL` guard, so a second call on an already-processed
record is *not* a zero-row no-op: on a single matching row the second
call affects 1 row again and moves `processed_at` from the first call's
time (5) to the second call's time (9). -/
theorem markProcessed_not_idempotent_cex :
    (markProcessed [sampleRow] 1 5).2 = 1 ∧
    ((markProcessed [sampleRow] 1 5).1.map (fun r => r.processedAt)) = [some 5] ∧
    (markProcessed (markProcessed [sampleRow] 1 5).1 1 9).2 = 1 ∧
    ((markProcessed (markProcessed [sampleRow] 1 5).1 1 9).1.map
        (fun r => r.processedAt)) = [some 9] := by
  decide

/-- C8 (amended).  A second `markProcessed` call is not a zero-row
no-op: it affects exactly the rows the first call affected and
overwrites their `processed_at` with the later time — the two calls
compose to a single call at the second time, and every matching row
still carries a non-null `processed_at` (so it is never re-selected by
`getPending`). -/
theorem markProcessed_second_call_overwrites (rows : List OutboxRow)
    (id t1 t2 : Nat) :
    (markProcessed (markProcessed rows id t1).1 id t2).2 =
      (markProcessed rows id t1).2 ∧
    (markProcessed (markProcessed rows id t1).1 id t2).1 =
      (markProcessed rows id t2).1 ∧
    ∀ r ∈ (markProcessed (markProcessed rows id t1).1 id t2).1,
      r.rowId = id → r.processedAt = some t2 := by
  refine ⟨?_, ?_, ?_⟩
  · simp only [markProcessed]
    induction rows with
    | nil => rfl
    | cons r t ih =>
      by_cases h : r.rowId = id <;>
        simp [List.filter_cons, h, ih]
  · simp only [markProcessed, List.map_map]
    congr 1
    funext r
    by_cases h : r.rowId = id <;> simp [h]
  · intro r hr hid
    simp only [markProcessed, List.mem_map] at hr
    rcases hr with ⟨x, _, rfl⟩
    by_cases h : x.rowId = id <;> simp_all

/-- Witness for the amended C8 at a concrete row. -/
theorem markProcessed_second_call_overwrites_witness :
    (markProcessed (markProcessed [sampleRow] 1 5).1 1 9).2 =
      (markProcessed [sampleRow] 1 5).2 ∧
    (markProcessed (markProcessed [sampleRow] 1 5).1 1 9).1 =
      (markProcessed [sampleRow] 1 9).1 ∧
    ∀ r ∈ (markProcessed (markProcessed [sampleRow] 1 5).1 1 9).1,
      r.rowId = 1 → r.processedAt = some 9 :=
  markProcessed_second_call_overwrites [sampleRow] 1 5 9

/-- C9.  In one publisher tick the fetched records are handled in fetch
order: the ids handed to the producer are exactly the records whose
publish succeeded, in order; a record is marked processed exactly when
its own publish *and* its own mark succeeded, and is left pending
(unchanged) otherwise; and the tick itself returns no error no matter
which publishes or marks failed. -/
theorem publisherTick_per_record (now : Nat) (pubOk markOk : Nat → Bool)
    (records : List OutboxRow) :
    (publisherTick now pubOk markOk (some records)).1 = none ∧
    (publisherTick now pubOk markOk (some records)).2.rows =
      records.map (fun r =>
        if pubOk r.rowId then
          (if markOk r.rowId then { r with processedAt := some now } else r)
        else r) ∧
    (publisherTick now pubOk markOk (some records)).2.publishedIds =
      (records.filter (fun r => pubOk r.rowId)).map (fun r => r.rowId) := by
  cases records with
  | nil => simp [publisherTick]
  | cons r t =>
    exact ⟨rfl, by simp [publisherTick, tickLoop_rows],
           by simp [publisherTick, tickLoop_ids]⟩

/-- C10.  `PublishBatch` on an open producer with an empty message list
returns `nil` immediately: zero broker attempts, no waits, no retries,
and the producer state — in particular every metrics counter — is
unchanged. -/
theorem publishBatch_empty_noop (st : PState) (hopen : st.closed = false)
    (mR : Nat) (base durNs : Int) (ctxDone : Nat → Bool)
    (outcomes : Nat → Option KErr) :
    producerPublishBatch st 0 mR base ctxDone outcomes durNs =
      (⟨none, ⟨[], 0, 0, .exhausted none⟩, 0, 0⟩, st) := by
  simp [producerPublishBatch, hopen]

/-- Witness for C10 on a fresh producer. -/
theorem publishBatch_empty_noop_witness :
    initialPState.closed = false ∧
    producerPublishBatch initialPState 0 3 100000000 (fun _ => false)
        (fun _ => none) 7 =
      (⟨none, ⟨[], 0, 0, .exhausted none⟩, 0, 0⟩, initialPState) :=
  ⟨rfl, publishBatch_empty_noop initialPState rfl 3 100000000 7
    (fun _ => false) (fun _ => none)⟩

/-- C7.  After the first successful `Close` of an open producer, every
`Publish` and `PublishBatch` fails immediately with the closed error —
zero broker attempts, state (metrics included) unchanged — and a second
`Close` fails with the already-closed error. -/
theorem producer_closed_guard (st : PState) (hopen : st.closed = false)
    (n mR : Nat) (base durNs : Int) (ctxDone : Nat → Bool)
    (outcomes : Nat → Option KErr) (w2 : Bool) :
    producerClose st true = (none, { st with closed := true }) ∧
    producerPublish { st with closed := true } mR base ctxDone outcomes durNs =
      (⟨some .closed, ⟨[], 0, 0, .exhausted none⟩, 0, 0⟩,
       { st with closed := true }) ∧
    producerPublishBatch { st with closed := true } n mR base ctxDone
        outcomes durNs =
      (⟨some .closed, ⟨[], 0, 0, .exhausted none⟩, 0, 0⟩,
       { st with closed := true }) ∧
    producerClose { st with closed := true } w2 =
      (some "producer already closed", { st with closed := true }) := by
  refine ⟨?_, ?_, ?_, ?_⟩
  · simp [producerClose, hopen]
  · simp [producerPublish]
  · simp [producerPublishBatch]
  · simp [producerClose]

/-- Witness for C7 on a fresh producer. -/
theorem producer_closed_guard_witness :
    initialPState.closed = false ∧
    (producerClose initialPState true =
        (none, { initialPState with closed := true }) ∧
      producerPublish { initialPState with closed := true } 3 100000000
          (fun _ => false) (fun _ => none) 7 =
        (⟨some .closed, ⟨[], 0, 0, .exhausted none⟩, 0, 0⟩,
         { initialPState with closed := true }) ∧
      producerPublishBatch { initialPState with closed := true } 2 3 100000000
          (fun _ => false) (fun _ => none) 7 =
        (⟨some .closed, ⟨[], 0, 0, .exhausted none⟩, 0, 0⟩,
         { initialPState with closed := true }) ∧
      producerClose { initialPState with closed := true } true =
        (some "producer already closed", { initialPState with closed := true })) :=
  ⟨rfl, producer_closed_guard initialPState rfl 2 3 100000000 7
    (fun _ => false) (fun _ => none) true⟩

/-! ## Retry-loop lemmas used by the backoff claims -/

theorem runFrom_attempts_le (base : Int) (ctxDone : Nat → Bool)
    (outcomes : Nat → Option KErr) (last : Option KErr) (l : List Nat) :
    (runFrom base ctxDone outcomes last l).attempts ≤ l.length := by
  induction l generalizing last with
  | nil => simp [runFrom]
  | cons a t ih =>
    by_cases h0 : a = 0
    · subst h0
      cases ho : outcomes 0 with
      | none => simp [runFrom, ho]
      | some e =>
        by_cases hr : isRetriableError (some e)
        · have := ih (some e)
          simp [runFrom, ho, hr]
          omega
        · simp [runFrom, ho, hr]
    · cases hc : ctxDone a with
      | true => simp [runFrom, h0, hc]
      | false =>
        cases ho : outcomes a with
        | none => simp [runFrom, h0, hc, ho]
        | some e =>
          by_cases hr : isRetriableError (some e)
          · have := ih (some e)
            simp [runFrom, h0, hc, ho, hr]
            omega
          · simp [runFrom, h0, hc, ho, hr]

theorem runFrom_waits_shape (base : Int) (outcomes : Nat → Option KErr)
    (last : Option KErr) (s n : Nat) (hs : 1 ≤ s) :
    ∃ k, k ≤ n ∧
      (runFrom base (fun _ => false) outcomes last (List.range' s n)).waits =
        (List.range' s k).map (backoffNs base) := by
  induction n generalizing s last with
  | zero => exact ⟨0, le_rfl, rfl⟩
  | succ n ih =>
    have hs0 : s ≠ 0 := by omega
    rw [List.range'_succ]
    cases ho : outcomes s with
    | none =>
      refine ⟨1, by omega, ?_⟩
      simp [runFrom, hs0, ho, List.range'_succ]
    | some e =>
      by_cases hr : isRetriableError (some e)
      · obtain ⟨k, hk, heq⟩ := ih (some e) (s + 1) (by omega)
        refine ⟨k + 1, by omega, ?_⟩
        simp [runFrom, hs0, ho, hr, heq, List.range'_succ]
      · refine ⟨1, by omega, ?_⟩
        simp [runFrom, hs0, ho, hr, List.range'_succ]

theorem runFrom_exhausted (base : Int) (outcomes : Nat → Option KErr)
    (s n : Nat) (last : Option KErr) (hs : 1 ≤ s)
    (h : ∀ k, k < n → RetriableFailure (outcomes (s + k))) :
    (runFrom base (fun _ => false) outcomes last (List.range' s n)).attempts = n ∧
    (runFrom base (fun _ => false) outcomes last (List.range' s n)).retries = n ∧
    (runFrom base (fun _ => false) outcomes last (List.range' s n)).outcome =
      .exhausted (if n = 0 then last else outcomes (s + (n - 1))) := by
  induction n generalizing s last with
  | zero => simp [runFrom]
  | succ n ih =>
    obtain ⟨e, he, hre⟩ := h 0 (by omega)
    rw [Nat.add_zero] at he
    have hs0 : s ≠ 0 := by omega
    obtain ⟨hat, hret, hout⟩ := ih (s + 1) (some e) (by omega) (fun k hk => by
      have hx := h (k + 1) (by omega)
      rwa [show s + (k + 1) = s + 1 + k by omega] at hx)
    rw [List.range'_succ]
    refine ⟨by simp [runFrom, hs0, he, hre, hat], by simp [runFrom, hs0, he, hre, hret], ?_⟩
    simp only [runFrom, hs0, ite_false, he, hre, if_true]
    rw [hout]
    cases n with
    | zero => simp [he]
    | succ m =>
      have harg : s + 1 + m = s + (m + 1) := by omega
      simp [harg]

theorem backoffNs_eq_min (base : Int) (i : Nat) (hb : 0 ≤ base)
    (hlt : base * 2 ^ i < 2 ^ 63) :
    backoffNs base (i + 1) = min (base * 2 ^ i) capNs := by
  rcases eq_or_lt_of_le hb with hb0 | hbpos
  · have hw : wrap64 0 = 0 := by decide
    have hcap : (0 : Int) ≤ capNs := by decide
    simp [backoffNs, ← hb0, hw, min_eq_left hcap, not_lt.2 hcap]
  · have h2i : (2 : Int) ^ i ≤ base * 2 ^ i := by
      have h1 : (1 : Int) * 2 ^ i ≤ base * 2 ^ i := by
        apply mul_le_mul_of_nonneg_right _ (by positivity)
        omega
      simpa using h1
    have hi63 : i < 63 := by
      by_contra hcon
      push_neg at hcon
      have h1 : (2 : Int) ^ 63 ≤ 2 ^ i := pow_le_pow_right₀ (by norm_num) hcon
      linarith
    have hgo : goShl1 i = 2 ^ i := by simp [goShl1, hi63]
    have hnn : (0 : Int) ≤ base * 2 ^ i := by positivity
    have hwrap : wrap64 (base * 2 ^ i) = base * 2 ^ i :=
      wrap64_eq_self (by linarith) hlt
    have harith : i + 1 - 1 = i := by omega
    simp only [backoffNs, harith, hgo, hwrap]
    rcases le_or_lt (base * 2 ^ i) capNs with hc | hc
    · rw [if_neg (not_lt.2 hc), min_eq_left hc]
    · rw [if_pos hc, min_eq_right (le_of_lt hc)]

theorem publishGo_run (mR : Nat) (base : Int) (ctxDone : Nat → Bool)
    (outcomes : Nat → Option KErr) :
    (publishGo mR base ctxDone outcomes).run =
      runFrom base ctxDone outcomes none (List.range (mR + 1)) := by
  simp only [publishGo]
  split <;> rfl

theorem publishGo_waits_shape (mR : Nat) (base : Int)
    (outcomes : Nat → Option KErr) :
    ∃ k, k ≤ mR ∧
      (publishGo mR base (fun _ => false) outcomes).run.waits =
        (List.range' 1 k).map (backoffNs base) := by
  have hrange : List.range (mR + 1) = 0 :: List.range' 1 mR := by
    rw [List.range_eq_range', List.range'_succ]
  rw [publishGo_run, hrange]
  cases ho : outcomes 0 with
  | none => exact ⟨0, by omega, by simp [runFrom, ho]⟩
  | some e =>
    by_cases hr : isRetriableError (some e)
    · obtain ⟨k, hk, heq⟩ := runFrom_waits_shape base outcomes (some e) 1 mR le_rfl
      exact ⟨k, hk, by simp [runFrom, ho, hr, heq]⟩
    · exact ⟨0, by omega, by simp [runFrom, ho, hr]⟩

theorem publishGo_all_retriable (mR : Nat) (base : Int)
    (outcomes : Nat → Option KErr)
    (h : ∀ a, a ≤ mR → RetriableFailure (outcomes a)) :
    (publishGo mR base (fun _ => false) outcomes).run.attempts = mR + 1 ∧
    ∃ e, outcomes mR = some e ∧
      (publishGo mR base (fun _ => false) outcomes).res =
        some (.failedAfter (Int.ofNat mR + 1) (some e)) := by
  have hrange : List.range (mR + 1) = 0 :: List.range' 1 mR := by
    rw [List.range_eq_range', List.range'_succ]
  obtain ⟨e0, he0, hre0⟩ := h 0 (by omega)
  obtain ⟨hat, hret, hout⟩ := runFrom_exhausted base outcomes 1 mR (some e0) le_rfl
    (fun k hk => by
      have hx := h (k + 1) (by omega)
      rwa [show k + 1 = 1 + k by omega] at hx)
  obtain ⟨eL, heL, -⟩ := h mR (by omega)
  have hlast : (if mR = 0 then some e0 else outcomes (1 + (mR - 1))) = some eL := by
    rcases Nat.eq_zero_or_pos mR with h0 | hpos
    · rw [if_pos h0, ← he0, ← h0]
      exact heL
    · rw [if_neg (by omega), show 1 + (mR - 1) = mR by omega, heL]
  have hstep : runFrom base (fun _ => false) outcomes none (List.range (mR + 1)) =
      ⟨(runFrom base (fun _ => false) outcomes (some e0) (List.range' 1 mR)).waits,
       (runFrom base (fun _ => false) outcomes (some e0) (List.range' 1 mR)).attempts + 1,
       (runFrom base (fun _ => false) outcomes (some e0) (List.range' 1 mR)).retries,
       (runFrom base (fun _ => false) outcomes (some e0) (List.range' 1 mR)).outcome⟩ := by
    rw [hrange]
    simp [runFrom, he0, hre0]
  rw [hout, hlast] at hstep
  refine ⟨?_, eL, heL, ?_⟩
  · rw [publishGo_run, hstep, hat]
  · simp [publishGo, hstep]

/-- C5 (counterexample).  The claim's wait formula
`min(base * 2^(k-1), 5s)` does not hold for every max-retries value:
the Go multiplication `RetryBackoff * time.Duration(1<<uint(attempt-1))`
wraps at 64 bits.  With the valid configuration base = 100ms,
maxRetries = 38 the formula demands min(100ms·2^37, 5s) = 5s for the
wait before retry 38, but the code computes the wrapped negative
product -4702848726509551616 ns (an immediately-firing timer), which
also escapes the 5s cap check. -/
theorem publish_backoff_overflow_cex :
    validateConfig
        ⟨["localhost:9092"], "media.events", 38, 100000000,
         10000000000, 100, false⟩ = none ∧
    min ((100000000 : Int) * 2 ^ 37) capNs = capNs ∧
    backoffNs 100000000 38 = -4702848726509551616 ∧
    (publishGo 38 100000000 (fun _ => false)
        (fun _ => some (.msg "timeout"))).run.waits.getLast? =
      some (-4702848726509551616) := by
  decide

/-- C5 (amended).  As long as `base * 2^(maxRetries-1)` fits in a signed
64-bit integer (true for every realistic configuration, e.g. base 100ms
with up to 37 retries), the schedule is exactly as claimed: attempt 0 is
immediate (no wait is recorded before it), at most `maxRetries` waits
occur, the `i`-th recorded wait (the one before retry attempt `i+1`)
equals `min(base * 2^i, 5s)`, and when every attempt fails retriably the
loop performs exactly `maxRetries + 1` attempts and returns the terminal
error wrapping the last observed error and the reported total attempt
count `maxRetries + 1`. -/
theorem publish_backoff_schedule (mR : Nat) (base : Int)
    (outcomes : Nat → Option KErr) (hb : 0 ≤ base)
    (hov : base * 2 ^ (mR - 1) < 2 ^ 63) :
    (publishGo mR base (fun _ => false) outcomes).run.attempts ≤ mR + 1 ∧
    (publishGo mR base (fun _ => false) outcomes).run.waits.length ≤ mR ∧
    (∀ i (hi : i < (publishGo mR base (fun _ => false) outcomes).run.waits.length),
      (publishGo mR base (fun _ => false) outcomes).run.waits.get ⟨i, hi⟩ =
        min (base * 2 ^ i) capNs) ∧
    ((∀ a, a ≤ mR → RetriableFailure (outcomes a)) →
      (publishGo mR base (fun _ => false) outcomes).run.attempts = mR + 1 ∧
      ∃ e, outcomes mR = some e ∧
        (publishGo mR base (fun _ => false) outcomes).res =
          some (.failedAfter (Int.ofNat mR + 1) (some e))) := by
  obtain ⟨k, hk, hw⟩ := publishGo_waits_shape mR base outcomes
  refine ⟨?_, ?_, ?_, ?_⟩
  · rw [publishGo_run]
    have hle := runFrom_attempts_le base (fun _ => false) outcomes none
      (List.range (mR + 1))
    simpa using hle
  · rw [hw]
    simpa using hk
  · intro i hi
    have hik : i < k := by
      have hi' := hi
      rw [hw] at hi'
      simpa using hi'
    have hget := List.get_of_eq hw ⟨i, hi⟩
    rw [hget]
    simp only [List.get_eq_getElem, List.getElem_map, List.getElem_range']
    have hile : i ≤ mR - 1 := by omega
    have hmono : base * 2 ^ i ≤ base * 2 ^ (mR - 1) := by
      apply mul_le_mul_of_nonneg_left _ hb
      exact pow_le_pow_right₀ (by norm_num) hile
    have hlt : base * 2 ^ i < 2 ^ 63 := lt_of_le_of_lt hmono hov
    have h1i : 1 + 1 * i = i + 1 := by omega
    rw [h1i]
    exact backoffNs_eq_min base i hb hlt
  · exact publishGo_all_retriable mR base outcomes

/-- Witness for the amended C5 at the default configuration (base
100ms, 3 retries) under permanently retriable failures. -/
theorem publish_backoff_schedule_witness :
    (0 : Int) ≤ 100000000 ∧
    (100000000 : Int) * 2 ^ (3 - 1) < 2 ^ 63 ∧
    ((publishGo 3 100000000 (fun _ => false)
        (fun _ => some (.msg "connection refused"))).run.attempts ≤ 3 + 1 ∧
     (publishGo 3 100000000 (fun _ => false)
        (fun _ => some (.msg "connection refused"))).run.waits.length ≤ 3 ∧
     (∀ i (hi : i < (publishGo 3 100000000 (fun _ => false)
          (fun _ => some (.msg "connection refused"))).run.waits.length),
       (publishGo 3 100000000 (fun _ => false)
          (fun _ => some (.msg "connection refused"))).run.waits.get ⟨i, hi⟩ =
         min ((100000000 : Int) * 2 ^ i) capNs) ∧
     ((∀ a, a ≤ 3 →
         RetriableFailure (some (KErr.msg "connection refused"))) →
       (publishGo 3 100000000 (fun _ => false)
          (fun _ => some (.msg "connection refused"))).run.attempts = 3 + 1 ∧
       ∃ e, (some (KErr.msg "connection refused") : Option KErr) = some e ∧
         (publishGo 3 100000000 (fun _ => false)
            (fun _ => some (.msg "connection refused"))).res =
           some (.failedAfter (Int.ofNat 3 + 1) (some e)))) :=
  ⟨by decide, by decide,
   publish_backoff_schedule 3 100000000
     (fun _ => some (.msg "connection refused")) (by decide) (by decide)⟩

/-- C6 (counterexample).  `MaxRetries = 0` passes validation, but
`setDefaults` cannot distinguish the explicit 0 from an unset field and
replaces it with the default 3, so the constructed producer performs 4
attempts per failing `Publish` call instead of the single attempt the
claim requires. -/
theorem maxRetries_zero_cex :
    validateConfig zeroRetryCfg = none ∧
    zeroRetryCfg.maxRetries = 0 ∧
    NewProducer zeroRetryCfg = .ok (setDefaults zeroRetryCfg) ∧
    (setDefaults zeroRetryCfg).maxRetries = 3 ∧
    (publishGo (setDefaults zeroRetryCfg).maxRetries.toNat
        (setDefaults zeroRetryCfg).retryBackoff (fun _ => false)
        (fun _ => some (.msg "connection refused"))).run.attempts = 4 := by
  refine ⟨by decide, by decide, rfl, by decide, by decide⟩

/-- C6 (amended).  For every configuration with maximum retry attempts
explicitly 0 (which passes validation), construction succeeds — but
`setDefaults` treats the 0 as unset and installs the default 3, so the
resulting producer retries: under persistently retriable failures a
single `Publish` call makes exactly 4 broker attempts, not 1. -/
theorem maxRetries_zero_treated_as_unset (cfg : ProducerConfig)
    (h0 : cfg.maxRetries = 0) (hv : validateConfig cfg = none)
    (outcomes : Nat → Option KErr)
    (hfail : ∀ a, a ≤ 3 → RetriableFailure (outcomes a)) :
    NewProducer cfg = .ok (setDefaults cfg) ∧
    (setDefaults cfg).maxRetries = 3 ∧
    (publishGo (setDefaults cfg).maxRetries.toNat (setDefaults cfg).retryBackoff
        (fun _ => false) outcomes).run.attempts = 4 := by
  have hmr : (setDefaults cfg).maxRetries = 3 := by simp [setDefaults, h0]
  refine ⟨by simp [NewProducer, hv], hmr, ?_⟩
  rw [hmr]
  exact (publishGo_all_retriable 3 (setDefaults cfg).retryBackoff outcomes hfail).1

/-- Witness for the amended C6 at the concrete zero-retries config. -/
theorem maxRetries_zero_treated_as_unset_witness :
    zeroRetryCfg.maxRetries = 0 ∧
    validateConfig zeroRetryCfg = none ∧
    (NewProducer zeroRetryCfg = .ok (setDefaults zeroRetryCfg) ∧
     (setDefaults zeroRetryCfg).maxRetries = 3 ∧
     (publishGo (setDefaults zeroRetryCfg).maxRetries.toNat
        (setDefaults zeroRetryCfg).retryBackoff (fun _ => false)
        (fun _ => some (.msg "connection refused"))).run.attempts = 4) :=
  ⟨by decide, by decide,
   maxRetries_zero_treated_as_unset zeroRetryCfg (by decide) (by decide)
     (fun _ => some (.msg "connection refused"))
     (fun a _ => ⟨.msg "connection refused", rfl, by decide⟩)⟩

end MediaPlatform
